import Mathlib

/-!
# Verification of the RPT FEM reconstruction localization engine

Shallow embedding of `source/rpt/rpt_fem_reconstruction.cc` (class
`RPTFEMReconstruction<3>`, the only instantiation): the per-cell cost
evaluator (`assemble_matrix_and_rhs`), the validity checker
(`calculate_reference_location_error`), the per-cell cost function
(`calculate_cost`), the two cell-search strategies
(`find_position_global_search`, `find_position_local_search`), the trajectory
driver (`trajectory`) and the checkpoint manager
(`checkpoint` / `load_from_checkpoint`).

Modelling conventions:
* `double` is modelled by `ℚ` (exact arithmetic; the claims under study are
  structural/algebraic, not about rounding).
* The LAPACK LU factorization of the 3×3 per-cell system
  (`compute_lu_factorization` + `solve`) is modelled by an exact solve which
  fails (`Option.none`) exactly when the matrix is singular; in the C++ code
  a singular factorization raises an exception (`AssertThrow(info == 0, ...)`
  inside deal.II, always active), modelled here by the `Except Unit` error of
  the enclosing search.
* `DBL_MAX`, the initial value of `max_cost_function`, is modelled by
  `Option ℚ` with `none` as the sentinel: every actual cost (a finite sum of
  squares) compares below it, exactly as every computed cost compares below
  `DBL_MAX`.
* deal.II's default-initialized `Point<3>` has all coordinates zero; it is
  modelled by the all-zero `Point3`.
* `std::set` of cell iterators is modelled by a duplicate-free list in
  insertion order; the claims proved about it do not depend on the
  iteration order of the set.  The C++ test
  `*previous_main_cells.find(current_main_cell) != current_main_cell`
  (which dereferences `end()` when the cell is absent) is modelled by its
  evident intent, non-membership.
* The boost/deal.II text-archive serialization of a `Vector<double>` and of
  the `DoFHandler` is external third-party code (spec §6 declares the format
  an opaque archive whose only contract is round-trip fidelity); it is
  modelled as a faithful copy of the value.
-/

namespace RPTFEM

/-- The two cost-function modes of
`Parameters::RPTFEMReconstructionParameters::FEMCostFunction`. -/
inductive CostMode
  | absolute
  | relative
deriving DecidableEq, Repr

/-- A point of ℝ³ (`dealii::Point<3>`). -/
structure Point3 where
  x : ℚ
  y : ℚ
  z : ℚ
deriving DecidableEq, Repr

/-- Default-initialized `Point<3>`: all coordinates zero. -/
def Point3.zero : Point3 := ⟨0, 0, 0⟩

/-- A tetrahedral mesh cell as the searches see it: 4 vertex locations
(`cell->vertex(v)`), the dof index of each vertex
(`cell->vertex_dof_index(v, 0)`) and the global vertex index of each vertex
(`cell->vertex_index(v)`). -/
structure Cell where
  vertices : List Point3
  dofIndices : List ℕ
  vertexIndices : List ℕ
deriving DecidableEq, Repr

/-- `-vertex_count[d][0] + vertex_count[d][k+1]`, the count difference between
vertex `k+1` and the pivot vertex 0 of one detector's 4-vertex counts. -/
def pivotDiff (c : List ℚ) (k : ℕ) : ℚ :=
  -(c.getD 0 0) + c.getD (k + 1) 0

/-- `denom[d] = 1 / (experimental_count[d] * experimental_count[d])` of the
relative branch of `assemble_matrix_and_rhs`.  (For an index beyond the
vector the C++ `denom` entry stays zero-initialized; here `getD` yields `0`
and `1 / (0 * 0) = 0` in `ℚ`, the same value.) -/
def relDenom (ec : List ℚ) (d : ℕ) : ℚ :=
  1 / (ec.getD d 0 * ec.getD d 0)

/-- Entry `(i, j)` of the 3×3 system matrix assembled by
`assemble_matrix_and_rhs` (lines 383-395 and 417-431): the sum over detectors
of `(-c_d[0] + c_d[j+1]) * (-c_d[0] + c_d[i+1])`, each term additionally
weighted by `denom[d]` in relative mode. -/
def sys_matrix (mode : CostMode) (vc : List (List ℚ)) (ec : List ℚ)
    (i j : Fin 3) : ℚ :=
  match mode with
  | .absolute =>
      ((List.range vc.length).map (fun d =>
        pivotDiff (vc.getD d []) j.val * pivotDiff (vc.getD d []) i.val)).sum
  | .relative =>
      ((List.range vc.length).map (fun d =>
        pivotDiff (vc.getD d []) j.val * pivotDiff (vc.getD d []) i.val *
          relDenom ec d)).sum

/-- Entry `i` of the right-hand side assembled by `assemble_matrix_and_rhs`
(lines 397-407 and 433-444): minus the sum over detectors of
`(c_d[0] - experimental_count[d]) * (-c_d[0] + c_d[i+1])`, each term
additionally weighted by `denom[d]` in relative mode. -/
def sys_rhs (mode : CostMode) (vc : List (List ℚ)) (ec : List ℚ)
    (i : Fin 3) : ℚ :=
  match mode with
  | .absolute =>
      -((List.range vc.length).map (fun d =>
        ((vc.getD d []).getD 0 0 - ec.getD d 0) *
          pivotDiff (vc.getD d []) i.val)).sum
  | .relative =>
      -((List.range vc.length).map (fun d =>
        ((vc.getD d []).getD 0 0 - ec.getD d 0) *
          pivotDiff (vc.getD d []) i.val * relDenom ec d)).sum

/-- Determinant of a 3×3 matrix given as a function. -/
def det3 (m : Fin 3 → Fin 3 → ℚ) : ℚ :=
  m 0 0 * (m 1 1 * m 2 2 - m 1 2 * m 2 1) -
    m 0 1 * (m 1 0 * m 2 2 - m 1 2 * m 2 0) +
    m 0 2 * (m 1 0 * m 2 1 - m 1 1 * m 2 0)

/-- Replace column `k` of `m` by the vector `b`. -/
def updCol (m : Fin 3 → Fin 3 → ℚ) (k : Fin 3) (b : Fin 3 → ℚ) :
    Fin 3 → Fin 3 → ℚ :=
  fun r c => if c = k then b r else m r c

/-- Exact solve of the dense 3×3 system (the model of
`compute_lu_factorization` + `solve` on a `LAPACKSupport::general` matrix):
`none` exactly when the matrix is singular — the case in which the C++
factorization raises — otherwise the unique solution, via Cramer's rule. -/
def solve3 (m : Fin 3 → Fin 3 → ℚ) (b : Fin 3 → ℚ) : Option (Fin 3 → ℚ) :=
  if det3 m = 0 then none
  else some (fun k => det3 (updCol m k b) / det3 m)

/-- `assemble_matrix_and_rhs<3>` (lines 362-454): build the 3×3 system from
the per-detector 4-vertex counts and the observed counts and solve it for the
reference coordinates; `none` models the singular-system exception. -/
def assemble_matrix_and_rhs (vc : List (List ℚ)) (ec : List ℚ)
    (mode : CostMode) : Option (Fin 3 → ℚ) :=
  solve3 (sys_matrix mode vc ec) (sys_rhs mode vc ec)

/-- Violation of one explicit reference coordinate (lines 467-476):
`x - 1` if `x > 1`, `|x|` if `x < 0`, else `0`.  (The two `if`s of the C++
code are mutually exclusive, so the chained `if` is equivalent.) -/
def explicitCoordError (x : ℚ) : ℚ :=
  if x > 1 then x - 1 else if x < 0 then |x| else 0

/-- Violation of the implicit fourth coordinate (lines 478-488):
`|x|` if `x < 0`, `x - 1` if `x > 1`, else `0`. -/
def lastCoordError (x : ℚ) : ℚ :=
  if x < 0 then |x| else if x > 1 then x - 1 else 0

/-- `calculate_reference_location_error` (lines 457-497): the sum of squares
of the four per-coordinate violations. -/
def calculate_reference_location_error (ref : Fin 3 → ℚ) (last : ℚ) : ℚ :=
  explicitCoordError (ref 0) ^ 2 + explicitCoordError (ref 1) ^ 2 +
    explicitCoordError (ref 2) ^ 2 + lastCoordError last ^ 2

/-- Nodal count of detector `d` at dof index `n` (`nodal_counts[d][n]`). -/
def nodalCountAt (nc : List (List ℚ)) (d n : ℕ) : ℚ :=
  (nc.getD d []).getD n 0

/-- The count interpolated at the reference location inside `cell` for
detector `d` (lines 516-525 / 540-553):
`C_{0,d} * (1 - ξ - η - ζ) + C_{1,d} * ξ + C_{2,d} * η + C_{3,d} * ζ`. -/
def interpolatedCount (nc : List (List ℚ)) (cell : Cell) (ref : Fin 3 → ℚ)
    (last : ℚ) (d : ℕ) : ℚ :=
  nodalCountAt nc d (cell.dofIndices.getD 0 0) * last +
    nodalCountAt nc d (cell.dofIndices.getD 1 0) * ref 0 +
    nodalCountAt nc d (cell.dofIndices.getD 2 0) * ref 1 +
    nodalCountAt nc d (cell.dofIndices.getD 3 0) * ref 2

/-- `calculate_cost` (lines 500-560): accumulate the squared mismatch between
interpolated and observed counts over the detectors, each term divided by
`experimental_count[d]^2` in relative mode. -/
def calculate_cost (nc : List (List ℚ)) (cell : Cell) (ref : Fin 3 → ℚ)
    (last : ℚ) (ec : List ℚ) (mode : CostMode) : ℚ :=
  match mode with
  | .absolute =>
      ((List.range nc.length).map (fun d =>
        let t := interpolatedCount nc cell ref last d - ec.getD d 0
        t * t)).sum
  | .relative =>
      ((List.range nc.length).map (fun d =>
        let t := interpolatedCount nc cell ref last d - ec.getD d 0
        t * t * relDenom ec d)).sum

/-- The 4-vertex nodal counts of `cell` for every detector
(lines 583-590 / 722-729): `count_from_all_detectors[d][v] =
nodal_counts[d][cell->vertex_dof_index(v, 0)]`. -/
def getVertexCounts (nc : List (List ℚ)) (cell : Cell) : List (List ℚ) :=
  nc.map (fun counts =>
    (List.range 4).map (fun v => counts.getD (cell.dofIndices.getD v 0) 0))

/-- The per-cell solve as invoked by both searches (lines 592-596 /
731-735): assemble and solve the system from the cell's vertex counts. -/
def cellRef (nc : List (List ℚ)) (ec : List ℚ) (mode : CostMode)
    (cell : Cell) : Option (Fin 3 → ℚ) :=
  assemble_matrix_and_rhs (getVertexCounts nc cell) ec mode

/-- The implicit fourth reference coordinate (lines 598-601):
`1 - reference_location[0] - reference_location[1] - reference_location[2]`. -/
def cellLast (ref : Fin 3 → ℚ) : ℚ :=
  1 - ref 0 - ref 1 - ref 2

/-- The real-world location of the particle interpolated inside `cell`
(lines 625-633): `vertex(0) + Σ_{v=1..3} ref[v-1] * (vertex(v) - vertex(0))`,
unrolled over the 4 vertices of the tetrahedron. -/
def cellPosition (cell : Cell) (ref : Fin 3 → ℚ) : Point3 :=
  let vtx := fun v => cell.vertices.getD v Point3.zero
  { x := (vtx 0).x + ref 0 * ((vtx 1).x - (vtx 0).x) +
      ref 1 * ((vtx 2).x - (vtx 0).x) + ref 2 * ((vtx 3).x - (vtx 0).x)
    y := (vtx 0).y + ref 0 * ((vtx 1).y - (vtx 0).y) +
      ref 1 * ((vtx 2).y - (vtx 0).y) + ref 2 * ((vtx 3).y - (vtx 0).y)
    z := (vtx 0).z + ref 0 * ((vtx 1).z - (vtx 0).z) +
      ref 1 * ((vtx 2).z - (vtx 0).z) + ref 2 * ((vtx 3).z - (vtx 0).z) }

/-- The mutable locals of the two search loops: `max_cost_function`
(`none` models the initial `DBL_MAX`), `position_found`, `real_location`
(default-initialized to the zero point) and the member
`previous_position_cell` (`none` models the never-assigned iterator). -/
structure SearchState where
  maxCost : Option ℚ
  found : Bool
  realLocation : Point3
  prevCell : Option Cell
deriving DecidableEq, Repr

/-- `calculated_cost < max_cost_function`, with `none` standing for the
initial `DBL_MAX`, below which every computed cost compares. -/
def costLtMax (c : ℚ) : Option ℚ → Bool
  | none => true
  | some m => decide (c < m)

/-- One iteration of the cell loop shared by both searches
(global: lines 581-636; local: lines 720-776): solve the cell's system
(`.error` models the uncaught singular-factorization exception), test the
reference-location error against the extrapolation limit, and on a strict
cost improvement record cost, cell and interpolated real location. -/
def searchStep (nc : List (List ℚ)) (ec : List ℚ) (mode : CostMode) (tol : ℚ)
    (st : SearchState) (cell : Cell) : Except Unit SearchState :=
  match cellRef nc ec mode cell with
  | none => .error ()
  | some ref =>
    let last := cellLast ref
    if calculate_reference_location_error ref last < tol then
      let cost := calculate_cost nc cell ref last ec mode
      if costLtMax cost st.maxCost then
        .ok ⟨some cost, true, cellPosition cell ref, some cell⟩
      else .ok st
    else .ok st

/-- The cell loop of the searches, visiting the candidate cells in order and
short-circuiting on the singular-system exception. -/
def searchLoop (nc : List (List ℚ)) (ec : List ℚ) (mode : CostMode) (tol : ℚ) :
    List Cell → SearchState → Except Unit SearchState
  | [], st => .ok st
  | c :: rest, st =>
    match searchStep nc ec mode tol st c with
    | .error e => .error e
    | .ok st1 => searchLoop nc ec mode tol rest st1

/-- The state the search locals are initialized to (lines 569-575):
`max_cost_function = DBL_MAX`, `position_found = false`, `real_location`
default-initialized, `previous_position_cell` left at its current value. -/
def initSearchState (prev0 : Option Cell) : SearchState :=
  ⟨none, false, Point3.zero, prev0⟩

/-- `find_position_global_search` (lines 563-642): run the cell loop over
every mesh cell, then unconditionally append `real_location` to
`found_positions` and return `position_found`.  The result carries the
returned flag, the updated `previous_position_cell` member and the updated
`found_positions` member. -/
def find_position_global_search (nc : List (List ℚ)) (cells : List Cell)
    (ec : List ℚ) (tol : ℚ) (mode : CostMode) (prev0 : Option Cell)
    (positions : List Point3) :
    Except Unit (Bool × Option Cell × List Point3) :=
  match searchLoop nc ec mode tol cells (initSearchState prev0) with
  | .error e => .error e
  | .ok st => .ok (st.found, st.prevCell, positions ++ [st.realLocation])

/-- `std::set<cell_iterator>::insert`: add the cell if absent. -/
def insertCell (c : Cell) (s : List Cell) : List Cell :=
  if c ∈ s then s else s ++ [c]

/-- Insert every cell of `cs` into the set `s`. -/
def insertCells (cs : List Cell) (s : List Cell) : List Cell :=
  cs.foldl (fun acc c => insertCell c acc) s

/-- `GridTools::find_cells_adjacent_to_vertex`: the cells having the vertex
with global index `vi` among their vertices. -/
def cellsAdjacentToVertex (mesh : List Cell) (vi : ℕ) : List Cell :=
  mesh.filter (fun c => decide (vi ∈ c.vertexIndices))

/-- Insert into `s` the cells adjacent to each vertex of `c`
(lines 669-677 and 701-711). -/
def expandCellInto (mesh : List Cell) (c : Cell) (s : List Cell) : List Cell :=
  c.vertexIndices.foldl
    (fun acc vi => insertCells (cellsAdjacentToVertex mesh vi) acc) s

/-- The proximity-level-1 candidate set (lines 666-677): the anchor cell
plus the cells adjacent to each of its vertices. -/
def baseAdjacentSet (mesh : List Cell) (cell : Cell) : List Cell :=
  expandCellInto mesh cell (insertCell cell [])

/-- One iteration of the proximity-level loop (lines 689-715).  The loop
snapshots `previous_adjacent_cells = all_adjacent_cells`, then for each cell
of the snapshot expands it if it is not in `previous_main_cells` — the C++
test `*previous_main_cells.find(cur) != cur` read as non-membership — and
(inside the inner loop, after every cell) reassigns
`previous_main_cells = previous_adjacent_cells`.  State: the pair
(`all_adjacent_cells`, `previous_main_cells`). -/
def proximityPass (mesh : List Cell) (st : List Cell × List Cell) :
    List Cell × List Cell :=
  let prevAdj := st.1
  prevAdj.foldl
    (fun acc cur =>
      (if cur ∈ acc.2 then acc.1 else expandCellInto mesh cur acc.1, prevAdj))
    st

/-- The candidate-set construction state after `n` proximity-level loop
iterations, starting from the level-1 set with
`previous_main_cells = {anchor}` (line 687). -/
def candidateState (mesh : List Cell) (cell : Cell) : ℕ → List Cell × List Cell
  | 0 => (baseAdjacentSet mesh cell, [cell])
  | n + 1 => proximityPass mesh (candidateState mesh cell n)

/-- The candidate cell set of the local search at proximity level `L ≥ 1`:
the loop of lines 689-715 runs for `proximity_level = 2 .. L`, i.e. `L - 1`
passes over the level-1 set. -/
def candidateCells (mesh : List Cell) (cell : Cell) (L : ℕ) : List Cell :=
  (candidateState mesh cell (L - 1)).1

/-- `find_position_local_search` (lines 644-785): run the same cell loop
over the proximity-level candidate set seeded by the anchor cell, but append
to `found_positions` only when a position was found. -/
def find_position_local_search (nc : List (List ℚ)) (mesh : List Cell)
    (proxL : ℕ) (ec : List ℚ) (tol : ℚ) (mode : CostMode) (anchor : Cell)
    (positions : List Point3) :
    Except Unit (Bool × Option Cell × List Point3) :=
  match searchLoop nc ec mode tol (candidateCells mesh anchor proxL)
      (initSearchState (some anchor)) with
  | .error e => .error e
  | .ok st =>
    .ok (st.found, st.prevCell,
      if st.found then positions ++ [st.realLocation] else positions)

/-- The local-first observation loop of `trajectory` (lines 813-836): state
`adjacent_cell_search` (initially `false`), the `previous_position_cell`
member and the `found_positions` member.  If `adjacent_cell_search` holds,
try the local search around the previous cell; if it fails (or was not
tried), run the global search. -/
def trajectory_local (nc : List (List ℚ)) (mesh : List Cell) (proxL : ℕ)
    (tol : ℚ) (mode : CostMode) :
    List (List ℚ) → Bool → Option Cell → List Point3 →
      Except Unit (List Point3)
  | [], _, _, acc => .ok acc
  | ec :: rest, adj, prev, acc =>
    match
      (match adj, prev with
       | true, some c =>
         find_position_local_search nc mesh proxL ec tol mode c acc
       | _, _ => .ok (false, prev, acc)) with
    | .error e => .error e
    | .ok (adj1, prev1, acc1) =>
      if adj1 then trajectory_local nc mesh proxL tol mode rest true prev1 acc1
      else
        match find_position_global_search nc mesh ec tol mode prev1 acc1 with
        | .error e => .error e
        | .ok (adj2, prev2, acc2) =>
          trajectory_local nc mesh proxL tol mode rest adj2 prev2 acc2

/-- The global-only observation loop of `trajectory` (lines 837-846): every
observation runs the global search. -/
def trajectory_global (nc : List (List ℚ)) (mesh : List Cell) (tol : ℚ)
    (mode : CostMode) :
    List (List ℚ) → Option Cell → List Point3 → Except Unit (List Point3)
  | [], _, acc => .ok acc
  | ec :: rest, prev, acc =>
    match find_position_global_search nc mesh ec tol mode prev acc with
    | .error e => .error e
    | .ok (_, prev1, acc1) => trajectory_global nc mesh tol mode rest prev1 acc1

/-- The persisted checkpoint: the serialized `DoFHandler` topology payload
plus one counts file per detector (the boost text archives are modelled as
faithful copies of the serialized values, spec §6). -/
structure Checkpoint where
  dofTopologyFile : List Cell
  countsFiles : List (List ℚ)
deriving DecidableEq, Repr

/-- The in-memory field store: the dof topology, the `n_detector` member and
the per-detector nodal count fields. -/
structure FieldStore where
  dofTopology : List Cell
  nDetector : ℕ
  nodalCounts : List (List ℚ)
deriving DecidableEq, Repr

/-- `checkpoint` (lines 850-874): save the dof handler, then one counts file
per detector `i < n_detector`, file `i` holding `nodal_counts[i]`. -/
def checkpoint_save (fs : FieldStore) : Checkpoint :=
  { dofTopologyFile := fs.dofTopology
    countsFiles :=
      (List.range fs.nDetector).map (fun i => fs.nodalCounts.getD i []) }

/-- `load_from_checkpoint` (lines 877-906): set
`n_detector = nodal_counts_file.size()` — the number of detector files
provided, with no validation against any configured detector count — load
the dof handler, then load file `i` into `nodal_counts[i]`. -/
def load_from_checkpoint (ck : Checkpoint) : FieldStore :=
  { dofTopology := ck.dofTopologyFile
    nDetector := ck.countsFiles.length
    nodalCounts := ck.countsFiles }

/-- `rpt_fem_reconstruct` (lines 981-1007): load the checkpoint, then run
`trajectory` on the observations and return the exported positions.
`cfgDetectorCount` is the detector count of the detector parameters
(`detector positions` configuration); the reconstruction path never reads
it — mirrored here by the unused argument. -/
def rpt_fem_reconstruct (cfgDetectorCount : ℕ) (ck : Checkpoint)
    (obs : List (List ℚ)) (tol : ℚ) (mode : CostMode) (searchLocal : Bool)
    (proxL : ℕ) : Except Unit (List Point3) :=
  let fs := load_from_checkpoint ck
  let _ := cfgDetectorCount
  if searchLocal then
    trajectory_local fs.nodalCounts fs.dofTopology proxL tol mode obs
      false none []
  else
    trajectory_global fs.nodalCounts fs.dofTopology tol mode obs none []

/-! ## Specification-side definitions (written from the claims' words) -/

/-- The system matrix entry in the words of the spec (claim C4): entry
`(i, j)` is the sum over detectors of
`(c_d[j+1] - c_d[0]) * (c_d[i+1] - c_d[0])`, each per-detector term
additionally weighted by `1 / obs_d^2` in relative mode.  Stated over the
detector-aligned `zip` of vertex counts and observed counts. -/
def claimMatrixEntry (mode : CostMode) (vc : List (List ℚ)) (ec : List ℚ)
    (i j : Fin 3) : ℚ :=
  match mode with
  | .absolute =>
      ((vc.zip ec).map (fun p =>
        (p.1.getD (j.val + 1) 0 - p.1.getD 0 0) *
          (p.1.getD (i.val + 1) 0 - p.1.getD 0 0))).sum
  | .relative =>
      ((vc.zip ec).map (fun p =>
        (p.1.getD (j.val + 1) 0 - p.1.getD 0 0) *
          (p.1.getD (i.val + 1) 0 - p.1.getD 0 0) * (1 / (p.2 * p.2)))).sum

/-- The right-hand-side entry in the words of the spec (claim C4): entry `i`
is minus the sum over detectors of `(c_d[0] - obs_d) * (c_d[i+1] - c_d[0])`,
each per-detector term additionally weighted by `1 / obs_d^2` in relative
mode. -/
def claimRhsEntry (mode : CostMode) (vc : List (List ℚ)) (ec : List ℚ)
    (i : Fin 3) : ℚ :=
  match mode with
  | .absolute =>
      -((vc.zip ec).map (fun p =>
        (p.1.getD 0 0 - p.2) * (p.1.getD (i.val + 1) 0 - p.1.getD 0 0))).sum
  | .relative =>
      -((vc.zip ec).map (fun p =>
        (p.1.getD 0 0 - p.2) * (p.1.getD (i.val + 1) 0 - p.1.getD 0 0) *
          (1 / (p.2 * p.2)))).sum

/-- The outcome of evaluating one nonsingular cell in a search: `none` when
the reference-location error misses the extrapolation limit, otherwise the
cell's cost and interpolated real-world position.  Used to state theorems
about the searches. -/
def candEval (nc : List (List ℚ)) (ec : List ℚ) (mode : CostMode) (tol : ℚ)
    (cell : Cell) : Option (ℚ × Point3) :=
  match cellRef nc ec mode cell with
  | none => none
  | some ref =>
    let last := cellLast ref
    if calculate_reference_location_error ref last < tol then
      some (calculate_cost nc cell ref last ec mode, cellPosition cell ref)
    else none

/-- The cell loop as claim C2 describes it (written from the claim's words,
for comparison with `searchLoop`): a cell whose per-cell system is singular
is treated as not a valid candidate and simply skipped, never fatal. -/
def searchLoopSkip (nc : List (List ℚ)) (ec : List ℚ) (mode : CostMode)
    (tol : ℚ) : List Cell → SearchState → SearchState
  | [], st => st
  | c :: rest, st =>
    searchLoopSkip nc ec mode tol rest
      (match candEval nc ec mode tol c with
       | none => st
       | some (k, p) =>
         if costLtMax k st.maxCost then ⟨some k, true, p, some c⟩ else st)

/-- The global search under claim C2's reading: singular cells skipped, the
search always completes. -/
def find_position_global_search_skip (nc : List (List ℚ)) (cells : List Cell)
    (ec : List ℚ) (tol : ℚ) (mode : CostMode) (prev0 : Option Cell)
    (positions : List Point3) : Bool × Option Cell × List Point3 :=
  let st := searchLoopSkip nc ec mode tol cells (initSearchState prev0)
  (st.found, st.prevCell, positions ++ [st.realLocation])

/-! ## Concrete data for the witnesses and counterexamples -/

/-- Three detectors over four nodes whose pivot count differences form the
identity: detector `d` has count 1 at node `d + 1` and 0 elsewhere. -/
def ncW : List (List ℚ) := [[0, 1, 0, 0], [0, 0, 1, 0], [0, 0, 0, 1]]

/-- A well-behaved unit-tetrahedron cell on nodes 0-3. -/
def gCell : Cell :=
  { vertices := [⟨0, 0, 0⟩, ⟨1, 0, 0⟩, ⟨0, 1, 0⟩, ⟨0, 0, 1⟩]
    dofIndices := [0, 1, 2, 3]
    vertexIndices := [0, 1, 2, 3] }

/-- A degenerate cell whose four vertices all carry dof 0: every per-detector
count difference vanishes, so its system matrix is zero — singular. -/
def bCell : Cell :=
  { vertices := [⟨0, 0, 0⟩, ⟨1, 0, 0⟩, ⟨0, 1, 0⟩, ⟨0, 0, 1⟩]
    dofIndices := [0, 0, 0, 0]
    vertexIndices := [0, 1, 2, 3] }

/-- An observation that `ncW`/`gCell` localize at reference coordinates
`(1/4, 1/4, 1/4)`, strictly inside the simplex. -/
def ecIn : List ℚ := [1/4, 1/4, 1/4]

/-- An observation that `ncW`/`gCell` place at reference coordinates
`(2, 0, 0)`, far outside the simplex. -/
def ecOut : List ℚ := [2, 0, 0]

/-- The reference coordinates `assemble_matrix_and_rhs` computes for the
vertex counts of `gCell` under `ncW` and observation `ec` (the Cramer
solution of the assembled system). -/
def gRef (ec : List ℚ) : Fin 3 → ℚ :=
  fun k =>
    det3 (updCol (sys_matrix .absolute (getVertexCounts ncW gCell) ec) k
        (sys_rhs .absolute (getVertexCounts ncW gCell) ec)) /
      det3 (sys_matrix .absolute (getVertexCounts ncW gCell) ec)

/-- The Cramer solution of the system assembled directly from vertex counts
`vc` and observation `ec` in absolute mode (for the C4 witness). -/
def xW4 : Fin 3 → ℚ :=
  fun k =>
    det3 (updCol (sys_matrix .absolute ncW ecIn) k
        (sys_rhs .absolute ncW ecIn)) /
      det3 (sys_matrix .absolute ncW ecIn)

/-- A second cell sharing vertex 3 with `gCell` (for the C6 witness). -/
def nbCell : Cell :=
  { vertices := [⟨0, 0, 1⟩, ⟨1, 0, 1⟩, ⟨0, 1, 1⟩, ⟨0, 0, 2⟩]
    dofIndices := [3, 4, 5, 6]
    vertexIndices := [3, 4, 5, 6] }

/-- Three detectors over eight nodes: nodes 0-3 as in `ncW`, nodes 4-7 with
negated unit differences, so the cell on nodes 4-7 solves to reference
coordinates outside the simplex (for the C7 witness). -/
def ncW7 : List (List ℚ) :=
  [[0, 1, 0, 0, 0, -1, 0, 0],
   [0, 0, 1, 0, 0, 0, -1, 0],
   [0, 0, 0, 1, 0, 0, 0, -1]]

/-- A nonsingular cell on nodes 4-7; under `ncW7` and observation
`(1/4, 1/4, 1/4)` its reference coordinates are `(-1/4, -1/4, -1/4)`,
outside the simplex. -/
def hCell : Cell :=
  { vertices := [⟨2, 0, 0⟩, ⟨3, 0, 0⟩, ⟨2, 1, 0⟩, ⟨2, 0, 1⟩]
    dofIndices := [4, 5, 6, 7]
    vertexIndices := [4, 5, 6, 7] }

/-- The Cramer solution of a cell's system under `ncW7` in absolute mode
(for the C7 witness). -/
def g7Ref (cell : Cell) (ec : List ℚ) : Fin 3 → ℚ :=
  fun k =>
    det3 (updCol (sys_matrix .absolute (getVertexCounts ncW7 cell) ec) k
        (sys_rhs .absolute (getVertexCounts ncW7 cell) ec)) /
      det3 (sys_matrix .absolute (getVertexCounts ncW7 cell) ec)

/-! ## Helper lemmas -/

lemma explicitCoordError_nonneg (x : ℚ) : 0 ≤ explicitCoordError x := by
  unfold explicitCoordError
  split_ifs with h1 h2
  · linarith
  · exact abs_nonneg x
  · exact le_refl 0

lemma lastCoordError_nonneg (x : ℚ) : 0 ≤ lastCoordError x := by
  unfold lastCoordError
  split_ifs with h1 h2
  · exact abs_nonneg x
  · linarith
  · exact le_refl 0

lemma explicitCoordError_eq_zero (x : ℚ) :
    explicitCoordError x = 0 ↔ 0 ≤ x ∧ x ≤ 1 := by
  unfold explicitCoordError
  split_ifs with h1 h2
  · constructor
    · intro h; exfalso; linarith
    · rintro ⟨-, h⟩; exfalso; linarith
  · constructor
    · intro h; exfalso; have := abs_pos.mpr (by linarith : x ≠ 0); linarith
    · rintro ⟨h, -⟩; exfalso; linarith
  · push_neg at h1 h2
    exact ⟨fun _ => ⟨h2, h1⟩, fun _ => rfl⟩

lemma lastCoordError_eq_zero (x : ℚ) :
    lastCoordError x = 0 ↔ 0 ≤ x ∧ x ≤ 1 := by
  unfold lastCoordError
  split_ifs with h1 h2
  · constructor
    · intro h; exfalso; have := abs_pos.mpr (by linarith : x ≠ 0); linarith
    · rintro ⟨h, -⟩; exfalso; linarith
  · constructor
    · intro h; exfalso; linarith
    · rintro ⟨-, h⟩; exfalso; linarith
  · push_neg at h1 h2
    exact ⟨fun _ => ⟨h1, h2⟩, fun _ => rfl⟩

lemma sq4_eq_zero {a b c d : ℚ} :
    a ^ 2 + b ^ 2 + c ^ 2 + d ^ 2 = 0 ↔ a = 0 ∧ b = 0 ∧ c = 0 ∧ d = 0 := by
  constructor
  · intro h
    have h1 := sq_nonneg a
    have h2 := sq_nonneg b
    have h3 := sq_nonneg c
    have h4 := sq_nonneg d
    have ea : a ^ 2 = 0 := by linarith
    have eb : b ^ 2 = 0 := by linarith
    have ec : c ^ 2 = 0 := by linarith
    have ed : d ^ 2 = 0 := by linarith
    exact ⟨(pow_eq_zero_iff (two_ne_zero)).mp ea,
      (pow_eq_zero_iff (two_ne_zero)).mp eb,
      (pow_eq_zero_iff (two_ne_zero)).mp ec,
      (pow_eq_zero_iff (two_ne_zero)).mp ed⟩
  · rintro ⟨rfl, rfl, rfl, rfl⟩; ring

/-! ## C5: the Validity Checker -/

/-- Claim C5: for every reference-coordinate vector and implicit last
coordinate, `calculate_reference_location_error` returns the sum of squares
of the four per-coordinate violations (`coord - 1` when `coord > 1`,
`|coord|` when `coord < 0`, else `0`, and analogously for the implicit
coordinate); the result is non-negative and zero exactly when all four
coordinates lie in `[0, 1]`; in particular it is exactly `0` at
`(1/4, 1/4, 1/4)` and strictly positive at `(3/2, 0, 0)`. -/
theorem C5_validity_checker :
    (∀ (ref : Fin 3 → ℚ) (last : ℚ),
      calculate_reference_location_error ref last =
        (if ref 0 > 1 then ref 0 - 1 else if ref 0 < 0 then |ref 0| else 0) ^ 2 +
        (if ref 1 > 1 then ref 1 - 1 else if ref 1 < 0 then |ref 1| else 0) ^ 2 +
        (if ref 2 > 1 then ref 2 - 1 else if ref 2 < 0 then |ref 2| else 0) ^ 2 +
        (if last < 0 then |last| else if last > 1 then last - 1 else 0) ^ 2) ∧
    (∀ (ref : Fin 3 → ℚ) (last : ℚ),
      0 ≤ calculate_reference_location_error ref last) ∧
    (∀ (ref : Fin 3 → ℚ) (last : ℚ),
      calculate_reference_location_error ref last = 0 ↔
        (∀ i : Fin 3, 0 ≤ ref i ∧ ref i ≤ 1) ∧ 0 ≤ last ∧ last ≤ 1) ∧
    calculate_reference_location_error
      (fun i => [(1 : ℚ)/4, 1/4, 1/4].getD i.val 0) (1/4) = 0 ∧
    0 < calculate_reference_location_error
      (fun i => [(3 : ℚ)/2, 0, 0].getD i.val 0)
      (cellLast (fun i => [(3 : ℚ)/2, 0, 0].getD i.val 0)) := by
  refine ⟨?_, ?_, ?_,
    by norm_num [calculate_reference_location_error, explicitCoordError,
      lastCoordError, cellLast],
    by norm_num [calculate_reference_location_error, explicitCoordError,
      lastCoordError, cellLast]⟩
  · intro ref last
    rfl
  · intro ref last
    have h0 := explicitCoordError_nonneg (ref 0)
    have h1 := explicitCoordError_nonneg (ref 1)
    have h2 := explicitCoordError_nonneg (ref 2)
    have h3 := lastCoordError_nonneg last
    unfold calculate_reference_location_error
    positivity
  · intro ref last
    unfold calculate_reference_location_error
    rw [sq4_eq_zero,
      explicitCoordError_eq_zero, explicitCoordError_eq_zero,
      explicitCoordError_eq_zero, lastCoordError_eq_zero]
    constructor
    · rintro ⟨ha, hb, hc, hd⟩
      refine ⟨fun i => ?_, hd⟩
      fin_cases i <;> assumption
    · rintro ⟨h, hd⟩
      exact ⟨h 0, h 1, h 2, hd⟩

/-! ## C10: symmetry of the assembled system matrix -/

/-- Claim C10: in both cost modes, the 3×3 system matrix assembled by the
cost evaluator is symmetric: entry `(i, j)` equals entry `(j, i)` for every
input of vertex counts and observed counts. -/
theorem C10_sys_matrix_symmetric :
    ∀ (mode : CostMode) (vc : List (List ℚ)) (ec : List ℚ) (i j : Fin 3),
      sys_matrix mode vc ec i j = sys_matrix mode vc ec j i := by
  intro mode vc ec i j
  cases mode <;>
    · simp only [sys_matrix]
      refine congrArg List.sum (List.map_congr_left fun d _ => by ring)

/-! ## C8: checkpoint round-trip -/

lemma range_map_getD (l : List (List ℚ)) :
    (List.range l.length).map (fun i => l.getD i []) = l := by
  induction l with
  | nil => rfl
  | cons a t ih =>
    simp only [List.length_cons, List.range_succ_eq_map, List.map_cons,
      List.getD_cons_zero, List.map_map]
    refine congrArg (a :: ·) ?_
    calc (List.range t.length).map ((fun i => (a :: t).getD i []) ∘ Nat.succ)
        = (List.range t.length).map (fun i => t.getD i []) :=
          List.map_congr_left fun d _ => by
            simp [Function.comp, List.getD_cons_succ]
      _ = t := ih

/-- Claim C8: for every non-empty field store whose `n_detector` member
matches its per-detector count fields, saving a checkpoint and loading it
back reproduces the original field store exactly — same per-detector nodal
counts, same detector ordering, same topology. -/
theorem C8_checkpoint_roundtrip (fs : FieldStore)
    (hn : fs.nDetector = fs.nodalCounts.length)
    (hne : fs.nodalCounts ≠ []) :
    load_from_checkpoint (checkpoint_save fs) = fs := by
  unfold load_from_checkpoint checkpoint_save
  cases fs with
  | mk dof n counts =>
    simp only at hn
    subst hn
    simp only [FieldStore.mk.injEq, range_map_getD]

/-! ## C4: the assembled system and its solution -/

lemma zip_sum_eq_range_sum (f : List ℚ × ℚ → ℚ) :
    ∀ (vc : List (List ℚ)) (ec : List ℚ), vc.length = ec.length →
      ((vc.zip ec).map f).sum =
        ((List.range vc.length).map
          (fun d => f (vc.getD d [], ec.getD d 0))).sum
  | [], [], _ => rfl
  | [], _ :: _, h => by simp at h
  | _ :: _, [], h => by simp at h
  | v :: vt, e :: et, h => by
    have ht : vt.length = et.length := by simpa using h
    simp only [List.zip_cons_cons, List.map_cons, List.sum_cons,
      List.length_cons, List.range_succ_eq_map, List.map_map,
      List.getD_cons_zero]
    refine congrArg (f (v, e) + ·) ?_
    rw [zip_sum_eq_range_sum f vt et ht]
    refine congrArg List.sum (List.map_congr_left fun d _ => ?_)
    simp [Function.comp, List.getD_cons_succ]

lemma solve3_sol {m : Fin 3 → Fin 3 → ℚ} {b : Fin 3 → ℚ} {x : Fin 3 → ℚ}
    (h : solve3 m b = some x) :
    ∀ i, m i 0 * x 0 + m i 1 * x 1 + m i 2 * x 2 = b i := by
  unfold solve3 at h
  split_ifs at h with hd
  have hx : x = fun k => det3 (updCol m k b) / det3 m :=
    (Option.some.inj h).symm
  subst hx
  intro i
  have hd9 : m 0 0 * (m 1 1 * m 2 2 - m 1 2 * m 2 1) -
      m 0 1 * (m 1 0 * m 2 2 - m 1 2 * m 2 0) +
      m 0 2 * (m 1 0 * m 2 1 - m 1 1 * m 2 0) ≠ 0 := by
    simpa [det3] using hd
  have hP : ∀ j : Fin 3, j = 0 ∨ j = 1 ∨ j = 2 := by decide
  rcases hP i with rfl | rfl | rfl <;>
    · simp only [det3, updCol, Fin.isValue]
      norm_num [Fin.ext_iff]
      field_simp
      ring

/-- Claim C4: for every list of per-detector 4-vertex counts and every
observed count vector (one observation per detector), the cost evaluator
builds the 3×3 system whose matrix entry `(i, j)` is the sum over detectors
of `(c_d[j+1] - c_d[0]) * (c_d[i+1] - c_d[0])` and whose right-hand side
entry `i` is minus the sum over detectors of
`(c_d[0] - obs_d) * (c_d[i+1] - c_d[0])` — in relative mode with every
per-detector term weighted by `1 / obs_d^2` — and the reference coordinates
it returns solve exactly that system. -/
theorem C4_cost_evaluator_system (mode : CostMode) (vc : List (List ℚ))
    (ec : List ℚ) (x : Fin 3 → ℚ) (hlen : vc.length = ec.length)
    (hx : assemble_matrix_and_rhs vc ec mode = some x) :
    (∀ i j, sys_matrix mode vc ec i j = claimMatrixEntry mode vc ec i j) ∧
    (∀ i, sys_rhs mode vc ec i = claimRhsEntry mode vc ec i) ∧
    (∀ i, sys_matrix mode vc ec i 0 * x 0 + sys_matrix mode vc ec i 1 * x 1 +
      sys_matrix mode vc ec i 2 * x 2 = sys_rhs mode vc ec i) := by
  refine ⟨?_, ?_, solve3_sol hx⟩
  · intro i j
    cases mode <;>
      · simp only [sys_matrix, claimMatrixEntry]
        rw [zip_sum_eq_range_sum _ vc ec hlen]
        refine congrArg List.sum (List.map_congr_left fun d _ => ?_)
        simp only [pivotDiff, relDenom]
        ring
  · intro i
    cases mode <;>
      · simp only [sys_rhs, claimRhsEntry]
        rw [zip_sum_eq_range_sum _ vc ec hlen]
        refine congrArg (-·) (congrArg List.sum
          (List.map_congr_left fun d _ => ?_))
        simp only [pivotDiff, relDenom]
        ring

lemma assemble_ncW_ecIn :
    assemble_matrix_and_rhs ncW ecIn .absolute = some xW4 := by
  have hdet : det3 (sys_matrix .absolute ncW ecIn) ≠ 0 := by
    norm_num [det3, sys_matrix, pivotDiff, ncW, List.range_succ]
  unfold assemble_matrix_and_rhs solve3 xW4
  rw [if_neg hdet]

/-- Witness for C4: three detectors whose pivot differences form the
identity system, observed counts `(1/4, 1/4, 1/4)`. -/
theorem C4_witness :
    (ncW.length = ecIn.length ∧
      assemble_matrix_and_rhs ncW ecIn .absolute = some xW4) ∧
    ((∀ i j, sys_matrix .absolute ncW ecIn i j =
        claimMatrixEntry .absolute ncW ecIn i j) ∧
      (∀ i, sys_rhs .absolute ncW ecIn i =
        claimRhsEntry .absolute ncW ecIn i) ∧
      (∀ i, sys_matrix .absolute ncW ecIn i 0 * xW4 0 +
        sys_matrix .absolute ncW ecIn i 1 * xW4 1 +
        sys_matrix .absolute ncW ecIn i 2 * xW4 2 =
          sys_rhs .absolute ncW ecIn i)) :=
  ⟨⟨rfl, assemble_ncW_ecIn⟩,
    C4_cost_evaluator_system .absolute ncW ecIn xW4 rfl assemble_ncW_ecIn⟩

/-! ## Characterization of the search cell loop -/

lemma searchStep_eval {nc : List (List ℚ)} {ec : List ℚ} {mode : CostMode}
    {tol : ℚ} {st : SearchState} {cell : Cell}
    (hns : cellRef nc ec mode cell ≠ none) :
    searchStep nc ec mode tol st cell = .ok
      (match candEval nc ec mode tol cell with
       | none => st
       | some (k, p) =>
         if costLtMax k st.maxCost then ⟨some k, true, p, some cell⟩
         else st) := by
  unfold searchStep candEval
  cases h : cellRef nc ec mode cell with
  | none => exact absurd h hns
  | some ref =>
    by_cases hv :
      calculate_reference_location_error ref (cellLast ref) < tol
    · simp only [hv, if_true]
      split <;> rfl
    · simp only [hv, if_false]

lemma searchLoop_error {nc : List (List ℚ)} {ec : List ℚ} {mode : CostMode}
    {tol : ℚ} :
    ∀ (l : List Cell) (st : SearchState) (c : Cell), c ∈ l →
      cellRef nc ec mode c = none →
      searchLoop nc ec mode tol l st = .error () := by
  intro l
  induction l with
  | nil => intro st c hc _; exact absurd hc (List.not_mem_nil c)
  | cons a rest ih =>
    intro st c hc hnone
    by_cases ha : cellRef nc ec mode a = none
    · simp [searchLoop, searchStep, ha]
    · simp only [searchLoop]
      rw [searchStep_eval ha]
      rcases List.mem_cons.mp hc with rfl | hcr
      · exact absurd hnone ha
      · exact ih _ c hcr hnone

lemma searchLoop_eq_skip {nc : List (List ℚ)} {ec : List ℚ} {mode : CostMode}
    {tol : ℚ} :
    ∀ (l : List Cell) (st : SearchState),
      (∀ c ∈ l, cellRef nc ec mode c ≠ none) →
      searchLoop nc ec mode tol l st =
        .ok (searchLoopSkip nc ec mode tol l st) := by
  intro l
  induction l with
  | nil => intro st _; rfl
  | cons a rest ih =>
    intro st hns
    simp only [searchLoop, searchLoopSkip]
    rw [searchStep_eval (hns a (List.mem_cons_self a rest))]
    exact ih _ (fun c hc => hns c (List.mem_cons_of_mem a hc))

lemma searchLoopSkip_stays {nc : List (List ℚ)} {ec : List ℚ}
    {mode : CostMode} {tol : ℚ} :
    ∀ (l : List Cell) (st : SearchState),
      (∀ c ∈ l, ∀ k p, candEval nc ec mode tol c = some (k, p) →
        costLtMax k st.maxCost = false) →
      searchLoopSkip nc ec mode tol l st = st := by
  intro l
  induction l with
  | nil => intro st _; rfl
  | cons a rest ih =>
    intro st hno
    simp only [searchLoopSkip]
    cases he : candEval nc ec mode tol a with
    | none => exact ih st (fun c hc => hno c (List.mem_cons_of_mem a hc))
    | some kp =>
      rcases kp with ⟨k, p⟩
      have hk := hno a (List.mem_cons_self a rest) k p he
      simp only [hk, Bool.false_eq_true, if_false]
      exact ih st (fun c hc => hno c (List.mem_cons_of_mem a hc))

/-! ## Monotonicity of the local-search candidate-set construction -/

lemma mem_insertCell_self (c : Cell) (s : List Cell) : c ∈ insertCell c s := by
  unfold insertCell
  split
  · assumption
  · exact List.mem_append_right _ (List.mem_singleton.mpr rfl)

lemma subset_insertCell (c : Cell) (s : List Cell) : s ⊆ insertCell c s := by
  unfold insertCell
  split
  · exact fun _ h => h
  · exact fun x hx => List.mem_append_left _ hx

lemma subset_insertCells (cs : List Cell) :
    ∀ s : List Cell, s ⊆ insertCells cs s := by
  induction cs with
  | nil => intro s; exact fun _ h => h
  | cons a t ih =>
    intro s x hx
    exact ih (insertCell a s) (subset_insertCell a s hx)

lemma foldl_insert_subset (mesh : List Cell) :
    ∀ (vs : List ℕ) (s : List Cell),
      s ⊆ vs.foldl
        (fun acc vi => insertCells (cellsAdjacentToVertex mesh vi) acc) s := by
  intro vs
  induction vs with
  | nil => intro s; exact fun _ h => h
  | cons v t ih =>
    intro s x hx
    exact ih (insertCells (cellsAdjacentToVertex mesh v) s)
      (subset_insertCells _ s hx)

lemma subset_expandCellInto (mesh : List Cell) (c : Cell) (s : List Cell) :
    s ⊆ expandCellInto mesh c s :=
  foldl_insert_subset mesh c.vertexIndices s

lemma foldl_pass_subset (mesh : List Cell) (pA : List Cell) :
    ∀ (l : List Cell) (acc : List Cell × List Cell),
      acc.1 ⊆ (l.foldl
        (fun acc cur =>
          (if cur ∈ acc.2 then acc.1 else expandCellInto mesh cur acc.1, pA))
        acc).1 := by
  intro l
  induction l with
  | nil => intro acc; exact fun _ h => h
  | cons a t ih =>
    intro acc x hx
    refine ih _ ?_
    dsimp only
    split
    · exact hx
    · exact subset_expandCellInto mesh a acc.1 hx

lemma subset_proximityPass (mesh : List Cell) (st : List Cell × List Cell) :
    st.1 ⊆ (proximityPass mesh st).1 :=
  foldl_pass_subset mesh st.1 st.1 st

/-! ## C6: candidate sets grow with the proximity level -/

/-- Claim C6: for every anchor cell with at least one neighbor, the
candidate cell set the local search builds at proximity level `L` is a
superset of the set it builds at level `L - 1`: each adjacency-expansion
pass only inserts cells, never removes any. -/
theorem C6_local_candidate_superset (mesh : List Cell) (cell : Cell) (L : ℕ)
    (hL : 2 ≤ L)
    (hnb : ∃ c ∈ mesh, c ≠ cell ∧
      ∃ vi ∈ cell.vertexIndices, vi ∈ c.vertexIndices) :
    candidateCells mesh cell (L - 1) ⊆ candidateCells mesh cell L := by
  unfold candidateCells
  have h1 : L - 1 - 1 = L - 2 := by omega
  have h2 : L - 1 = (L - 2) + 1 := by omega
  rw [h1, h2]
  exact subset_proximityPass mesh (candidateState mesh cell (L - 2))

/-- Witness for C6: a two-cell mesh whose cells share vertex 3, anchored at
the first cell, comparing levels 1 and 2. -/
theorem C6_witness :
    (2 ≤ 2 ∧ ∃ c ∈ [gCell, nbCell], c ≠ gCell ∧
      ∃ vi ∈ gCell.vertexIndices, vi ∈ c.vertexIndices) ∧
    candidateCells [gCell, nbCell] gCell (2 - 1) ⊆
      candidateCells [gCell, nbCell] gCell 2 := by
  have hnb : ∃ c ∈ [gCell, nbCell], c ≠ gCell ∧
      ∃ vi ∈ gCell.vertexIndices, vi ∈ c.vertexIndices := by
    refine ⟨nbCell, by simp, fun h => ?_, 3, by simp [gCell], by simp [nbCell]⟩
    simpa [nbCell, gCell] using congrArg Cell.dofIndices h
  exact ⟨⟨le_refl 2, hnb⟩,
    C6_local_candidate_superset [gCell, nbCell] gCell 2 (le_refl 2) hnb⟩

/-! ## C9: global search with no valid cell -/

/-- Claim C9: when the global search examines every cell (no singular
system) and no cell passes the validity tolerance, it still appends exactly
one entry to the trajectory, that entry is the default-initialized
all-zero point — not a value derived from any examined cell — the search
returns `false`, and the previous-cell member is untouched. -/
theorem C9_global_search_no_valid_cell (nc : List (List ℚ))
    (cells : List Cell) (ec : List ℚ) (tol : ℚ) (mode : CostMode)
    (prev0 : Option Cell) (positions : List Point3)
    (hns : ∀ c ∈ cells, cellRef nc ec mode c ≠ none)
    (hnv : ∀ c ∈ cells, ∀ ref, cellRef nc ec mode c = some ref →
      ¬ calculate_reference_location_error ref (cellLast ref) < tol) :
    find_position_global_search nc cells ec tol mode prev0 positions =
      .ok (false, prev0, positions ++ [Point3.zero]) := by
  have hno : ∀ c ∈ cells, candEval nc ec mode tol c = none := by
    intro c hc
    unfold candEval
    cases h : cellRef nc ec mode c with
    | none => rfl
    | some ref => simp only [hnv c hc ref h, if_false]
  unfold find_position_global_search
  rw [searchLoop_eq_skip cells (initSearchState prev0) hns,
    searchLoopSkip_stays cells (initSearchState prev0)
      (fun c hc k p he => absurd he (by rw [hno c hc]; exact Option.noConfusion))]
  rfl

lemma cellRef_gCell (ec : List ℚ) :
    cellRef ncW ec .absolute gCell = some (gRef ec) := by
  have hdet : det3 (sys_matrix .absolute (getVertexCounts ncW gCell) ec) ≠ 0 := by
    norm_num [det3, sys_matrix, pivotDiff, getVertexCounts, ncW, gCell,
      List.range_succ]
  unfold cellRef assemble_matrix_and_rhs solve3 gRef
  rw [if_neg hdet]

lemma cellRef_bCell (ec : List ℚ) :
    cellRef ncW ec .absolute bCell = none := by
  unfold cellRef assemble_matrix_and_rhs solve3
  rw [if_pos]
  norm_num [det3, sys_matrix, pivotDiff, getVertexCounts, ncW, bCell,
    List.range_succ]

lemma err_gRef_ecOut :
    calculate_reference_location_error (gRef ecOut)
      (cellLast (gRef ecOut)) = 2 := by
  norm_num [calculate_reference_location_error, explicitCoordError,
    lastCoordError, cellLast, gRef, det3, updCol, sys_matrix, sys_rhs,
    pivotDiff, getVertexCounts, ncW, gCell, ecOut, List.range_succ,
    Fin.ext_iff]

/-- Witness for C9: one well-behaved cell whose reference coordinates for
the observation `(2, 0, 0)` land far outside the simplex. -/
theorem C9_witness :
    ((∀ c ∈ [gCell], cellRef ncW ecOut .absolute c ≠ none) ∧
      (∀ c ∈ [gCell], ∀ ref, cellRef ncW ecOut .absolute c = some ref →
        ¬ calculate_reference_location_error ref (cellLast ref) < 1/100)) ∧
    find_position_global_search ncW [gCell] ecOut (1/100) .absolute none [] =
      .ok (false, none, [] ++ [Point3.zero]) := by
  have hns : ∀ c ∈ [gCell], cellRef ncW ecOut .absolute c ≠ none := by
    intro c hc
    rw [List.mem_singleton.mp hc, cellRef_gCell]
    exact Option.noConfusion
  have hnv : ∀ c ∈ [gCell], ∀ ref, cellRef ncW ecOut .absolute c = some ref →
      ¬ calculate_reference_location_error ref (cellLast ref) < 1/100 := by
    intro c hc ref href
    rw [List.mem_singleton.mp hc, cellRef_gCell] at href
    rw [← Option.some.inj href, err_gRef_ecOut]
    norm_num
  exact ⟨⟨hns, hnv⟩, C9_global_search_no_valid_cell ncW [gCell] ecOut (1/100)
    .absolute none [] hns hnv⟩

/-! ## C2: a singular per-cell system is fatal, not skipped -/

/-- Claim C2 as stated is false; the nearby true statement: a singular
per-cell system raises a numerical error that propagates uncaught out of
either search — whenever any candidate cell's system is singular, the
search (global over its cell list, local over its candidate set) aborts
with the error instead of skipping the cell. -/
theorem C2_singular_cell_aborts_search :
    (∀ (nc : List (List ℚ)) (cells : List Cell) (ec : List ℚ) (tol : ℚ)
      (mode : CostMode) (prev0 : Option Cell) (positions : List Point3)
      (c : Cell), c ∈ cells → cellRef nc ec mode c = none →
      find_position_global_search nc cells ec tol mode prev0 positions =
        .error ()) ∧
    (∀ (nc : List (List ℚ)) (mesh : List Cell) (proxL : ℕ) (ec : List ℚ)
      (tol : ℚ) (mode : CostMode) (anchor : Cell) (positions : List Point3)
      (c : Cell), c ∈ candidateCells mesh anchor proxL →
      cellRef nc ec mode c = none →
      find_position_local_search nc mesh proxL ec tol mode anchor positions =
        .error ()) := by
  constructor
  · intro nc cells ec tol mode prev0 positions c hc hnone
    unfold find_position_global_search
    rw [searchLoop_error cells _ c hc hnone]
  · intro nc mesh proxL ec tol mode anchor positions c hc hnone
    unfold find_position_local_search
    rw [searchLoop_error _ _ c hc hnone]

/-- Counterexample to claim C2 as stated: on the cell list
`[bCell, gCell]` with observation `(1/4, 1/4, 1/4)`, the first cell's
system is singular and the global search aborts with the error — it does
not skip the cell and continue — even though the remaining cell `gCell` is
a valid candidate (the claim-side skipping search finds it). -/
theorem C2_counterexample :
    find_position_global_search ncW [bCell, gCell] ecIn (1/100) .absolute
        none [] = .error () ∧
    cellRef ncW ecIn .absolute bCell = none ∧
    cellRef ncW ecIn .absolute gCell ≠ none ∧
    (find_position_global_search_skip ncW [bCell, gCell] ecIn (1/100)
        .absolute none []).1 = true := by
  refine ⟨?_, cellRef_bCell ecIn, ?_, ?_⟩
  · unfold find_position_global_search
    rw [searchLoop_error [bCell, gCell] _ bCell
      (List.mem_cons_self bCell [gCell]) (cellRef_bCell ecIn)]
  · rw [cellRef_gCell]
    exact Option.noConfusion
  · unfold find_position_global_search_skip
    simp only [searchLoopSkip, candEval, cellRef_bCell, cellRef_gCell]
    norm_num [calculate_reference_location_error, explicitCoordError,
      lastCoordError, cellLast, gRef, det3, updCol, sys_matrix, sys_rhs,
      pivotDiff, getVertexCounts, ncW, gCell, ecIn, List.range_succ,
      Fin.ext_iff, costLtMax, initSearchState]

/-- Witness for the amended C2 theorem: both searches abort on the concrete
singular cell `bCell`. -/
theorem C2_witness :
    (bCell ∈ [bCell] ∧ cellRef ncW ecIn .absolute bCell = none ∧
      bCell ∈ candidateCells [bCell] bCell 1) ∧
    find_position_global_search ncW [bCell] ecIn (1/100) .absolute none [] =
      .error () ∧
    find_position_local_search ncW [bCell] 1 ecIn (1/100) .absolute bCell [] =
      .error () := by
  have hmem : bCell ∈ candidateCells [bCell] bCell 1 := by
    unfold candidateCells candidateState baseAdjacentSet
    exact subset_expandCellInto [bCell] bCell _ (mem_insertCell_self bCell [])
  exact ⟨⟨List.mem_cons_self bCell [], cellRef_bCell ecIn, hmem⟩,
    C2_singular_cell_aborts_search.1 ncW [bCell] ecIn (1/100) .absolute none []
      bCell (List.mem_cons_self bCell []) (cellRef_bCell ecIn),
    C2_singular_cell_aborts_search.2 ncW [bCell] 1 ecIn (1/100) .absolute bCell
      [] bCell hmem (cellRef_bCell ecIn)⟩

/-! ## C3: one trajectory entry per observation under local-first search -/

lemma global_search_length {nc : List (List ℚ)} {cells : List Cell}
    {ec : List ℚ} {tol : ℚ} {mode : CostMode} {prev0 : Option Cell}
    {positions : List Point3} {b : Bool} {pc : Option Cell}
    {out : List Point3}
    (h : find_position_global_search nc cells ec tol mode prev0 positions =
      .ok (b, pc, out)) :
    out.length = positions.length + 1 := by
  unfold find_position_global_search at h
  cases hsl : searchLoop nc ec mode tol cells (initSearchState prev0) with
  | error e => rw [hsl] at h; cases h
  | ok st =>
    rw [hsl] at h
    have heq := Except.ok.inj h
    have hout : out = positions ++ [st.realLocation] :=
      (congrArg (fun t => t.2.2) heq).symm
    rw [hout]
    simp

lemma local_search_length {nc : List (List ℚ)} {mesh : List Cell} {proxL : ℕ}
    {ec : List ℚ} {tol : ℚ} {mode : CostMode} {anchor : Cell}
    {positions : List Point3} {b : Bool} {pc : Option Cell}
    {out : List Point3}
    (h : find_position_local_search nc mesh proxL ec tol mode anchor
      positions = .ok (b, pc, out)) :
    out.length = positions.length + (if b then 1 else 0) := by
  unfold find_position_local_search at h
  cases hsl : searchLoop nc ec mode tol (candidateCells mesh anchor proxL)
      (initSearchState (some anchor)) with
  | error e => rw [hsl] at h; cases h
  | ok st =>
    rw [hsl] at h
    have heq := Except.ok.inj h
    have hb : st.found = b := congrArg (fun t => t.1) heq
    have hout :
        out = if st.found then positions ++ [st.realLocation] else positions :=
      (congrArg (fun t => t.2.2) heq).symm
    rw [hout, ← hb]
    cases st.found <;> simp

lemma trajectory_local_length {nc : List (List ℚ)} {mesh : List Cell}
    {proxL : ℕ} {tol : ℚ} {mode : CostMode} :
    ∀ (obs : List (List ℚ)) (adj : Bool) (prev : Option Cell)
      (acc out : List Point3),
      trajectory_local nc mesh proxL tol mode obs adj prev acc = .ok out →
      out.length = acc.length + obs.length := by
  intro obs
  induction obs with
  | nil =>
    intro adj prev acc out h
    have : acc = out := Except.ok.inj h
    simp [← this]
  | cons ec rest ih =>
    intro adj prev acc out h
    cases adj with
    | false =>
      simp only [trajectory_local] at h
      cases hg : find_position_global_search nc mesh ec tol mode prev acc with
      | error e => rw [hg] at h; cases h
      | ok r =>
        rcases r with ⟨a2, p2, acc2⟩
        rw [hg] at h
        have h2 := ih a2 p2 acc2 out h
        have h1 := global_search_length hg
        simp only [List.length_cons]
        omega
    | true =>
      cases prev with
      | none =>
        simp only [trajectory_local] at h
        cases hg : find_position_global_search nc mesh ec tol mode none acc with
        | error e => rw [hg] at h; cases h
        | ok r =>
          rcases r with ⟨a2, p2, acc2⟩
          rw [hg] at h
          have h2 := ih a2 p2 acc2 out h
          have h1 := global_search_length hg
          simp only [List.length_cons]
          omega
      | some c =>
        simp only [trajectory_local] at h
        cases hl : find_position_local_search nc mesh proxL ec tol mode c
            acc with
        | error e => rw [hl] at h; cases h
        | ok r =>
          rcases r with ⟨a1, p1, acc1⟩
          rw [hl] at h
          have h1 := local_search_length hl
          cases a1 with
          | true =>
            simp only [if_true] at h h1
            have h2 := ih true p1 acc1 out h
            simp only [List.length_cons]
            omega
          | false =>
            simp only [Bool.false_eq_true, if_false] at h h1
            cases hg : find_position_global_search nc mesh ec tol mode p1
                acc1 with
            | error e => rw [hg] at h; cases h
            | ok r2 =>
              rcases r2 with ⟨a2, p2, acc2⟩
              rw [hg] at h
              have h2 := ih a2 p2 acc2 out h
              have h3 := global_search_length hg
              simp only [List.length_cons]
              omega

/-- Claim C3: under the local-first search policy, every processed
observation sequence that completes yields exactly one trajectory entry per
observation — a successful local search appends one entry, a failed local
search falls through to the global search which always appends one — so the
exported trajectory has exactly as many positions as observations. -/
theorem C3_one_trajectory_entry_per_observation (nc : List (List ℚ))
    (mesh : List Cell) (proxL : ℕ) (tol : ℚ) (mode : CostMode)
    (obs : List (List ℚ)) (out : List Point3)
    (h : trajectory_local nc mesh proxL tol mode obs false none [] = .ok out) :
    out.length = obs.length := by
  simpa using trajectory_local_length obs false none [] out h

lemma err_gRef_ecIn :
    calculate_reference_location_error (gRef ecIn)
      (cellLast (gRef ecIn)) = 0 := by
  norm_num [calculate_reference_location_error, explicitCoordError,
    lastCoordError, cellLast, gRef, det3, updCol, sys_matrix, sys_rhs,
    pivotDiff, getVertexCounts, ncW, gCell, ecIn, List.range_succ,
    Fin.ext_iff]

lemma pos_gCell_ecIn :
    cellPosition gCell (gRef ecIn) = ⟨1/4, 1/4, 1/4⟩ := by
  norm_num [cellPosition, gCell, gRef, det3, updCol, sys_matrix, sys_rhs,
    pivotDiff, getVertexCounts, ncW, ecIn, List.range_succ, Fin.ext_iff,
    Point3.zero]

lemma global_gCell_ecIn (prev0 : Option Cell) (positions : List Point3) :
    find_position_global_search ncW [gCell] ecIn (1/100) .absolute prev0
      positions = .ok (true, some gCell, positions ++ [⟨1/4, 1/4, 1/4⟩]) := by
  unfold find_position_global_search
  simp only [searchLoop, searchStep, cellRef_gCell, err_gRef_ecIn,
    initSearchState, costLtMax]
  norm_num [pos_gCell_ecIn]

lemma cand_gCell : candidateCells [gCell] gCell 1 = [gCell] := by
  simp [candidateCells, candidateState, baseAdjacentSet, expandCellInto,
    insertCells, insertCell, cellsAdjacentToVertex, gCell]

lemma local_gCell_ecIn (positions : List Point3) :
    find_position_local_search ncW [gCell] 1 ecIn (1/100) .absolute gCell
      positions = .ok (true, some gCell, positions ++ [⟨1/4, 1/4, 1/4⟩]) := by
  unfold find_position_local_search
  rw [cand_gCell]
  simp only [searchLoop, searchStep, cellRef_gCell, err_gRef_ecIn,
    initSearchState, costLtMax]
  norm_num [pos_gCell_ecIn]

lemma trajectory_witness_run :
    trajectory_local ncW [gCell] 1 (1/100) .absolute [ecIn, ecIn] false none
      [] = .ok [⟨1/4, 1/4, 1/4⟩, ⟨1/4, 1/4, 1/4⟩] := by
  simp only [trajectory_local]
  rw [global_gCell_ecIn none []]
  simp only [trajectory_local, List.nil_append]
  rw [local_gCell_ecIn [⟨1/4, 1/4, 1/4⟩]]
  simp [trajectory_local]

/-- Witness for C3: two observations over a one-cell mesh; the first is
found by the global search, the second by the local search around the
anchor, and the trajectory has exactly two entries. -/
theorem C3_witness :
    trajectory_local ncW [gCell] 1 (1/100) .absolute [ecIn, ecIn] false none
        [] = .ok [⟨1/4, 1/4, 1/4⟩, ⟨1/4, 1/4, 1/4⟩] ∧
    ([(⟨1/4, 1/4, 1/4⟩ : Point3), ⟨1/4, 1/4, 1/4⟩]).length =
      [ecIn, ecIn].length :=
  ⟨trajectory_witness_run,
    C3_one_trajectory_entry_per_observation ncW [gCell] 1 (1/100) .absolute
      [ecIn, ecIn] _ trajectory_witness_run⟩

/-! ## C1: checkpoint load never validates the detector count -/

lemma trajectory_global_length {nc : List (List ℚ)} {mesh : List Cell}
    {tol : ℚ} {mode : CostMode} :
    ∀ (obs : List (List ℚ)) (prev : Option Cell) (acc out : List Point3),
      trajectory_global nc mesh tol mode obs prev acc = .ok out →
      out.length = acc.length + obs.length := by
  intro obs
  induction obs with
  | nil =>
    intro prev acc out h
    have : acc = out := Except.ok.inj h
    simp [← this]
  | cons ec rest ih =>
    intro prev acc out h
    simp only [trajectory_global] at h
    cases hg : find_position_global_search nc mesh ec tol mode prev acc with
    | error e => rw [hg] at h; cases h
    | ok r =>
      rcases r with ⟨a2, p2, acc2⟩
      rw [hg] at h
      have h2 := ih p2 acc2 out h
      have h1 := global_search_length hg
      simp only [List.length_cons]
      omega

/-- Counterexample to claim C1 as stated: a checkpoint with 3 detector
count files loaded under a configured detector count of 5.  The claim says
the load must fail fast and no trajectory may be produced; instead the
reconstruction runs the search and produces a full trajectory. -/
theorem C1_counterexample :
    (5 : ℕ) ≠ (Checkpoint.mk [gCell] ncW).countsFiles.length ∧
    rpt_fem_reconstruct 5 ⟨[gCell], ncW⟩ [ecIn] (1/100) .absolute false 1 =
      .ok [⟨1/4, 1/4, 1/4⟩] := by
  constructor
  · norm_num [ncW]
  · show trajectory_global ncW [gCell] (1/100) .absolute [ecIn] none [] =
      .ok [⟨1/4, 1/4, 1/4⟩]
    simp only [trajectory_global]
    rw [global_gCell_ecIn none []]
    simp [trajectory_global]

/-- Claim C1 as stated is false; the nearby true statement:
`load_from_checkpoint` adopts the number of detector count files as the
detector count, never consults the configured detector count (the
reconstruction result is independent of it), raises no mismatch error, and
proceeds to the searches — a run that completes produces one trajectory
entry per observation regardless of any mismatch. -/
theorem C1_load_ignores_configured_detector_count :
    (∀ (cfg cfg2 : ℕ) (ck : Checkpoint) (obs : List (List ℚ)) (tol : ℚ)
      (mode : CostMode) (sl : Bool) (proxL : ℕ),
      rpt_fem_reconstruct cfg ck obs tol mode sl proxL =
        rpt_fem_reconstruct cfg2 ck obs tol mode sl proxL) ∧
    (∀ ck : Checkpoint,
      (load_from_checkpoint ck).nDetector = ck.countsFiles.length) ∧
    (∀ (cfg : ℕ) (ck : Checkpoint) (obs : List (List ℚ)) (tol : ℚ)
      (mode : CostMode) (sl : Bool) (proxL : ℕ) (out : List Point3),
      rpt_fem_reconstruct cfg ck obs tol mode sl proxL = .ok out →
      out.length = obs.length) := by
  refine ⟨fun _ _ _ _ _ _ _ _ => rfl, fun _ => rfl, ?_⟩
  intro cfg ck obs tol mode sl proxL out h
  unfold rpt_fem_reconstruct at h
  cases sl with
  | true =>
    simp only [if_true] at h
    simpa using trajectory_local_length obs false none [] out h
  | false =>
    simp only [Bool.false_eq_true, if_false] at h
    simpa using trajectory_global_length obs none [] out h

/-- Witness for the amended C1 theorem: a mismatched configured count (5
against 3 files) still produces one trajectory entry per observation. -/
theorem C1_witness :
    rpt_fem_reconstruct 5 ⟨[gCell], ncW⟩ [ecIn, ecIn] (1/100) .absolute true
        1 = .ok [⟨1/4, 1/4, 1/4⟩, ⟨1/4, 1/4, 1/4⟩] ∧
    ([(⟨1/4, 1/4, 1/4⟩ : Point3), ⟨1/4, 1/4, 1/4⟩]).length =
      [ecIn, ecIn].length := by
  have hrun : rpt_fem_reconstruct 5 ⟨[gCell], ncW⟩ [ecIn, ecIn] (1/100)
      .absolute true 1 = .ok [⟨1/4, 1/4, 1/4⟩, ⟨1/4, 1/4, 1/4⟩] :=
    trajectory_witness_run
  exact ⟨hrun, C1_load_ignores_configured_detector_count.2.2 5 ⟨[gCell], ncW⟩
    [ecIn, ecIn] (1/100) .absolute true 1 _ hrun⟩

/-! ## C7: order independence of the global search -/

lemma searchLoopSkip_finds {nc : List (List ℚ)} {ec : List ℚ}
    {mode : CostMode} {tol : ℚ} :
    ∀ (l : List Cell) (st : SearchState) (c : Cell) (k : ℚ) (p : Point3),
      c ∈ l →
      candEval nc ec mode tol c = some (k, p) →
      (∀ c2 ∈ l, ∀ k2 p2, candEval nc ec mode tol c2 = some (k2, p2) →
        k ≤ k2) →
      (∀ c2 ∈ l, ∀ k2 p2, candEval nc ec mode tol c2 = some (k2, p2) →
        k2 = k → c2 = c) →
      costLtMax k st.maxCost = true →
      searchLoopSkip nc ec mode tol l st = ⟨some k, true, p, some c⟩ := by
  intro l
  induction l with
  | nil => intro st c k p hc _ _ _ _; exact absurd hc (List.not_mem_nil c)
  | cons a rest ih =>
    intro st c k p hc hck hmin huniq hlt
    simp only [searchLoopSkip]
    cases he : candEval nc ec mode tol a with
    | none =>
      rcases List.mem_cons.mp hc with rfl | hcr
      · rw [he] at hck; cases hck
      · exact ih st c k p hcr hck
          (fun c2 h2 => hmin c2 (List.mem_cons_of_mem a h2))
          (fun c2 h2 => huniq c2 (List.mem_cons_of_mem a h2)) hlt
    | some kp =>
      rcases kp with ⟨ka, pa⟩
      have hka : k ≤ ka := hmin a (List.mem_cons_self a rest) ka pa he
      show searchLoopSkip nc ec mode tol rest
          (if costLtMax ka st.maxCost = true then
            ⟨some ka, true, pa, some a⟩ else st) =
        ⟨some k, true, p, some c⟩
      by_cases hlta : costLtMax ka st.maxCost = true
      · rw [if_pos hlta]
        by_cases hek : ka = k
        · have hac : a = c := huniq a (List.mem_cons_self a rest) ka pa he hek
          subst hac
          rw [he] at hck
          have hkp := Option.some.inj hck
          have hk2 : ka = k := congrArg Prod.fst hkp
          have hp2 : pa = p := congrArg Prod.snd hkp
          subst hk2
          subst hp2
          apply searchLoopSkip_stays
          intro c2 h2 k2 p2 he2
          have hle : ka ≤ k2 :=
            hmin c2 (List.mem_cons_of_mem a h2) k2 p2 he2
          simp only [costLtMax]
          exact decide_eq_false (not_lt.mpr hle)
        · have hklt : k < ka := lt_of_le_of_ne hka (fun h => hek h.symm)
          have hcr : c ∈ rest := by
            rcases List.mem_cons.mp hc with rfl | hcr
            · rw [he] at hck
              exact absurd (congrArg Prod.fst (Option.some.inj hck)) hek
            · exact hcr
          exact ih _ c k p hcr hck
            (fun c2 h2 => hmin c2 (List.mem_cons_of_mem a h2))
            (fun c2 h2 => huniq c2 (List.mem_cons_of_mem a h2))
            (by simp only [costLtMax]; exact decide_eq_true hklt)
      · rw [if_neg hlta]
        have hcr : c ∈ rest := by
          rcases List.mem_cons.mp hc with rfl | hcr
          · rw [he] at hck
            have hkk : ka = k := congrArg Prod.fst (Option.some.inj hck)
            rw [hkk] at hlta
            exact absurd hlt hlta
          · exact hcr
        exact ih st c k p hcr hck
          (fun c2 h2 => hmin c2 (List.mem_cons_of_mem a h2))
          (fun c2 h2 => huniq c2 (List.mem_cons_of_mem a h2)) hlt

/-- Claim C7: the global search is order-independent.  First conjunct: for
any two visitation orders of the same cells (a permutation), when no cell's
system is singular and no two distinct valid cells have exactly equal cost,
the search result — found flag, selected cell, recorded position — is
unchanged.  Second conjunct, the documented tie-break: a cell visited first
whose cost is less than or equal to every other valid cell's cost wins,
because a later cell with equal cost does not satisfy the strict less-than
comparison. -/
theorem C7_global_search_order_independent :
    (∀ (nc : List (List ℚ)) (cells cells2 : List Cell) (ec : List ℚ)
      (tol : ℚ) (mode : CostMode) (prev0 : Option Cell)
      (positions : List Point3),
      cells.Perm cells2 →
      (∀ c ∈ cells, cellRef nc ec mode c ≠ none) →
      (∀ c ∈ cells, ∀ c2 ∈ cells, ∀ k p k2 p2,
        candEval nc ec mode tol c = some (k, p) →
        candEval nc ec mode tol c2 = some (k2, p2) → k = k2 → c = c2) →
      find_position_global_search nc cells ec tol mode prev0 positions =
        find_position_global_search nc cells2 ec tol mode prev0 positions) ∧
    (∀ (nc : List (List ℚ)) (c : Cell) (cells : List Cell) (ec : List ℚ)
      (tol : ℚ) (mode : CostMode) (prev0 : Option Cell)
      (positions : List Point3) (k : ℚ) (p : Point3),
      (∀ c2 ∈ c :: cells, cellRef nc ec mode c2 ≠ none) →
      candEval nc ec mode tol c = some (k, p) →
      (∀ c2 ∈ cells, ∀ k2 p2, candEval nc ec mode tol c2 = some (k2, p2) →
        k ≤ k2) →
      find_position_global_search nc (c :: cells) ec tol mode prev0
        positions = .ok (true, some c, positions ++ [p])) := by
  constructor
  · intro nc cells cells2 ec tol mode prev0 positions hperm hns huniq
    have hns2 : ∀ c ∈ cells2, cellRef nc ec mode c ≠ none :=
      fun c h => hns c (hperm.mem_iff.mpr h)
    unfold find_position_global_search
    rw [searchLoop_eq_skip cells _ hns, searchLoop_eq_skip cells2 _ hns2]
    by_cases hval : ∃ c ∈ cells, (candEval nc ec mode tol c).isSome = true
    · obtain ⟨cv, hcv, hcvs⟩ := hval
      have hvne :
          cells.filter (fun c => (candEval nc ec mode tol c).isSome) ≠ [] := by
        intro hnil
        have hm : cv ∈ cells.filter
            (fun c => (candEval nc ec mode tol c).isSome) :=
          List.mem_filter.mpr ⟨hcv, hcvs⟩
        rw [hnil] at hm
        exact List.not_mem_nil cv hm
      cases harg : (cells.filter
          (fun c => (candEval nc ec mode tol c).isSome)).argmin
          (fun c => ((candEval nc ec mode tol c).map Prod.fst).getD 0) with
      | none => exact absurd (List.argmin_eq_none.mp harg) hvne
      | some c0 =>
        have hc0v := List.argmin_mem harg
        have hc0c : c0 ∈ cells := (List.mem_filter.mp hc0v).1
        have hc0s : (candEval nc ec mode tol c0).isSome = true :=
          (List.mem_filter.mp hc0v).2
        obtain ⟨kp0, hkp0⟩ := Option.isSome_iff_exists.mp hc0s
        rcases kp0 with ⟨k0, p0⟩
        have hmin : ∀ c2 ∈ cells, ∀ k2 p2,
            candEval nc ec mode tol c2 = some (k2, p2) → k0 ≤ k2 := by
          intro c2 h2 k2 p2 he2
          have h2v : c2 ∈ cells.filter
              (fun c => (candEval nc ec mode tol c).isSome) :=
            List.mem_filter.mpr ⟨h2, by rw [he2]; rfl⟩
          have hle := List.le_of_mem_argmin h2v harg
          simpa [hkp0, he2] using hle
        have huq : ∀ c2 ∈ cells, ∀ k2 p2,
            candEval nc ec mode tol c2 = some (k2, p2) → k2 = k0 →
            c2 = c0 :=
          fun c2 h2 k2 p2 he2 hk =>
            huniq c2 h2 c0 hc0c k2 p2 k0 p0 he2 hkp0 hk
        rw [searchLoopSkip_finds cells (initSearchState prev0) c0 k0 p0 hc0c
            hkp0 hmin huq rfl,
          searchLoopSkip_finds cells2 (initSearchState prev0) c0 k0 p0
            (hperm.mem_iff.mp hc0c) hkp0
            (fun c2 h2 => hmin c2 (hperm.mem_iff.mpr h2))
            (fun c2 h2 => huq c2 (hperm.mem_iff.mpr h2)) rfl]
    · push_neg at hval
      have hnone : ∀ c ∈ cells, candEval nc ec mode tol c = none := by
        intro c h
        cases he : candEval nc ec mode tol c with
        | none => rfl
        | some kp => exact absurd (by rw [he]; rfl) (hval c h)
      rw [searchLoopSkip_stays cells _ (fun c h k p he =>
          absurd he (by rw [hnone c h]; exact Option.noConfusion)),
        searchLoopSkip_stays cells2 _ (fun c h k p he =>
          absurd he (by
            rw [hnone c (hperm.mem_iff.mpr h)]
            exact Option.noConfusion))]
  · intro nc c cells ec tol mode prev0 positions k p hns hck hmin
    unfold find_position_global_search
    rw [searchLoop_eq_skip _ _ hns]
    simp only [searchLoopSkip, hck]
    have hc0 : costLtMax k (initSearchState prev0).maxCost = true := rfl
    rw [if_pos hc0]
    rw [searchLoopSkip_stays cells _ (fun c2 h2 k2 p2 he2 => by
      simp only [costLtMax]
      exact decide_eq_false (not_lt.mpr (hmin c2 h2 k2 p2 he2)))]

lemma cellRef_gCell7 :
    cellRef ncW7 ecIn .absolute gCell = some (g7Ref gCell ecIn) := by
  have hdet :
      det3 (sys_matrix .absolute (getVertexCounts ncW7 gCell) ecIn) ≠ 0 := by
    norm_num [det3, sys_matrix, pivotDiff, getVertexCounts, ncW7, gCell,
      List.range_succ]
  unfold cellRef assemble_matrix_and_rhs solve3 g7Ref
  rw [if_neg hdet]

lemma cellRef_hCell7 :
    cellRef ncW7 ecIn .absolute hCell = some (g7Ref hCell ecIn) := by
  have hdet :
      det3 (sys_matrix .absolute (getVertexCounts ncW7 hCell) ecIn) ≠ 0 := by
    norm_num [det3, sys_matrix, pivotDiff, getVertexCounts, ncW7, hCell,
      List.range_succ]
  unfold cellRef assemble_matrix_and_rhs solve3 g7Ref
  rw [if_neg hdet]

lemma candEval_gCell7 :
    candEval ncW7 ecIn .absolute (1/100) gCell =
      some (0, ⟨1/4, 1/4, 1/4⟩) := by
  unfold candEval
  rw [cellRef_gCell7]
  norm_num [calculate_reference_location_error, explicitCoordError,
    lastCoordError, cellLast, g7Ref, det3, updCol, sys_matrix, sys_rhs,
    pivotDiff, getVertexCounts, ncW7, gCell, ecIn, List.range_succ,
    Fin.ext_iff, calculate_cost, interpolatedCount, nodalCountAt,
    cellPosition, Point3.zero]

lemma candEval_hCell7 :
    candEval ncW7 ecIn .absolute (1/100) hCell = none := by
  unfold candEval
  rw [cellRef_hCell7]
  norm_num [calculate_reference_location_error, explicitCoordError,
    lastCoordError, cellLast, g7Ref, det3, updCol, sys_matrix, sys_rhs,
    pivotDiff, getVertexCounts, ncW7, hCell, ecIn, List.range_succ,
    Fin.ext_iff]

/-- Witness for C7: a two-cell list and its transposition; only the first
cell is a valid candidate, costs are tie-free, and both orders select it. -/
theorem C7_witness :
    (([gCell, hCell] : List Cell).Perm [hCell, gCell] ∧
      (∀ c ∈ [gCell, hCell], cellRef ncW7 ecIn .absolute c ≠ none)) ∧
    find_position_global_search ncW7 [gCell, hCell] ecIn (1/100) .absolute
        none [] =
      find_position_global_search ncW7 [hCell, gCell] ecIn (1/100) .absolute
        none [] ∧
    find_position_global_search ncW7 [gCell, hCell] ecIn (1/100) .absolute
        none [] = .ok (true, some gCell, [] ++ [⟨1/4, 1/4, 1/4⟩]) := by
  have hns : ∀ c ∈ [gCell, hCell], cellRef ncW7 ecIn .absolute c ≠ none := by
    intro c hc
    rcases List.mem_cons.mp hc with rfl | hc2
    · rw [cellRef_gCell7]; exact Option.noConfusion
    · rw [List.mem_singleton.mp hc2, cellRef_hCell7]
      exact Option.noConfusion
  have huniq : ∀ c ∈ [gCell, hCell], ∀ c2 ∈ [gCell, hCell], ∀ k p k2 p2,
      candEval ncW7 ecIn .absolute (1/100) c = some (k, p) →
      candEval ncW7 ecIn .absolute (1/100) c2 = some (k2, p2) → k = k2 →
      c = c2 := by
    intro c hc c2 hc2 k p k2 p2 h1 h2 _
    have hcg : c = gCell := by
      rcases List.mem_cons.mp hc with rfl | hcs
      · rfl
      · rw [List.mem_singleton.mp hcs, candEval_hCell7] at h1; cases h1
    have hc2g : c2 = gCell := by
      rcases List.mem_cons.mp hc2 with rfl | hcs
      · rfl
      · rw [List.mem_singleton.mp hcs, candEval_hCell7] at h2; cases h2
    rw [hcg, hc2g]
  have hmin : ∀ c2 ∈ [hCell], ∀ k2 p2,
      candEval ncW7 ecIn .absolute (1/100) c2 = some (k2, p2) →
      (0 : ℚ) ≤ k2 := by
    intro c2 hc2 k2 p2 h2
    rw [List.mem_singleton.mp hc2, candEval_hCell7] at h2
    cases h2
  exact ⟨⟨List.Perm.swap hCell gCell [], hns⟩,
    C7_global_search_order_independent.1 ncW7 [gCell, hCell] [hCell, gCell]
      ecIn (1/100) .absolute none [] (List.Perm.swap hCell gCell []) hns
      huniq,
    C7_global_search_order_independent.2 ncW7 gCell [hCell] ecIn (1/100)
      .absolute none [] 0 ⟨1/4, 1/4, 1/4⟩ hns candEval_gCell7 hmin⟩

/-- Witness for C8 at a concrete two-detector field store. -/
theorem C8_witness :
    ((⟨[], 2, [[1, 2], [3, 4]]⟩ : FieldStore).nDetector =
        (⟨[], 2, [[1, 2], [3, 4]]⟩ : FieldStore).nodalCounts.length ∧
      (⟨[], 2, [[1, 2], [3, 4]]⟩ : FieldStore).nodalCounts ≠ []) ∧
    load_from_checkpoint (checkpoint_save ⟨[], 2, [[1, 2], [3, 4]]⟩) =
      (⟨[], 2, [[1, 2], [3, 4]]⟩ : FieldStore) :=
  ⟨⟨rfl, by decide⟩,
    C8_checkpoint_roundtrip ⟨[], 2, [[1, 2], [3, 4]]⟩ rfl (by decide)⟩

end RPTFEM
